import Mathlib

/-!
Verification development for the NewsHub RSS aggregator (src/app0.py — the
FastAPI web application — and src/t1.py — the standalone `NewsFetcher`
class).  Python strings are modelled as lists of characters; Python string
comparison, `str.lower`, `str.strip`, the `in` substring operator and
`str.split` are modelled on that representation.  Timestamps are modelled
as natural numbers of seconds.
-/

namespace NewsHub

/-- A Python string, modelled as its list of characters. -/
abbrev Str := List Char

/-- ASCII whitespace, as recognised by `str.strip` / `str.split` on the
inputs this program handles. -/
def isSpace (c : Char) : Bool :=
  c = ' ' || c = '\t' || c = '\n' || c = '\r' || c = '\x0b' || c = '\x0c'

/-- `str.lower`, character by character. -/
def lower (s : Str) : Str := s.map Char.toLower

/-- `str.strip`: drop leading and trailing whitespace. -/
def strip (s : Str) : Str :=
  ((s.dropWhile isSpace).reverse.dropWhile isSpace).reverse

/-- Python string comparison `a <= b`: lexicographic by code point. -/
def strLe : Str → Str → Bool
  | [], _ => true
  | _ :: _, [] => false
  | a :: as, b :: bs =>
    if a.toNat = b.toNat then strLe as bs else decide (a.toNat < b.toNat)

/-- Does `hay` start with `needle`?  (Auxiliary for the substring test.) -/
def strStartsWith : Str → Str → Bool
  | [], _ => true
  | _ :: _, [] => false
  | a :: as, b :: bs => a = b && strStartsWith as bs

/-- Python's substring operator `needle in hay`. -/
def strContains (needle : Str) : Str → Bool
  | [] => strStartsWith needle []
  | c :: t => strStartsWith needle (c :: t) || strContains needle t

/-! ## Data model

A raw feedparser entry: each field the two programs probe for may be
absent.  `app0.py` reads `id`, `link`, `title`, `summary`, `description`,
`published`; `t1.py` additionally reads `guid` and `published_parsed`
(modelled as a timestamp in seconds). -/

structure RawEntry where
  entryId : Option Str := none
  entryGuid : Option Str := none
  entryLink : Option Str := none
  entryTitle : Option Str := none
  entrySummary : Option Str := none
  entryDescription : Option Str := none
  entryPublished : Option Str := none
  entryPublishedParsed : Option Nat := none
deriving DecidableEq, Repr

/-- A news item dict as built by `fetch_rss_feeds` in app0.py
(`title`, `desc`, `link`, `date`, `sourceUrl`, `sourceId`, `sourceName`,
`guid`).  `date` is the raw `published` string, empty when absent. -/
structure Item where
  title : Str
  desc : Str
  link : Str
  date : Str
  sourceUrl : Str
  sourceId : Str
  sourceName : Str
  guid : Str
deriving DecidableEq, Repr

/-- A news item dict as built by `NewsFetcher._parse_entry` in t1.py.
`publishedParsed` is the stored `published_parsed` value: the entry's
parse time when present, else `datetime.now(timezone.utc)` at fetch time.
`ppAbsent` records whether `published_parsed` was absent in the raw entry
(ghost field used to state the sort-order claims). -/
structure T1Item where
  title : Str
  desc : Str
  link : Str
  date : Str
  publishedParsed : Nat
  ppAbsent : Bool
  sourceUrl : Str
  sourceId : Str
  sourceName : Str
  guid : Str
deriving DecidableEq, Repr

/-- One source's fetch outcome inside a fetch cycle: its id, feed URL and
display name from the catalog, and `result = none` when the network
request or feed parse for this source failed (the `except` path, which
contributes zero items). `ε` is the entry payload: bare `RawEntry` for
t1.py, `RawEntry × Str` for app0.py where the second component is the
`str(uuid.uuid4())` token generated for that entry. -/
structure SourceFetch (ε : Type) where
  feedId : Str
  feedUrl : Str
  sourceName : Str
  result : Option (List ε)
deriving Repr

/-- The literal `"#"` used as the default link. -/
def hashStr : Str := "#".toList

/-! ## Deduplication pass

Both implementations walk the parsed items in source-iteration order with
two identity sets that start empty for the pass, and accept an item only
if its guid is not in `seen_guids` and its link is not in `seen_links`
(`fetch_rss_feeds` lines 359-363 of app0.py; `NewsFetcher._is_unique` and
the accept loop of `fetch_news` in t1.py). -/

def dedupPass (g l : α → Str) : List α → List Str → List Str → List α
  | [], _, _ => []
  | x :: xs, sg, sl =>
    if g x ∈ sg ∨ l x ∈ sl then dedupPass g l xs sg sl
    else x :: dedupPass g l xs (g x :: sg) (l x :: sl)

/-! ## Sorting

app0.py sorts by the raw `date` string, descending
(`news_items.sort(key=lambda x: x.get("date", ""), reverse=True)`);
t1.py sorts by the stored `published_parsed` timestamp, descending
(`all_items.sort(key=lambda x: x.get("published_parsed", ...), reverse=True)`).
Python's stable sort is modelled by `List.insertionSort` with the
"descending" relation; stability and the sorted order agree with CPython
for these total preorders. -/

def rDateA (a b : Item) : Prop := strLe b.date a.date = true

instance : DecidableRel rDateA := fun a b => Bool.decEq (strLe b.date a.date) true

def rDateT (a b : T1Item) : Prop := b.publishedParsed ≤ a.publishedParsed

instance : DecidableRel rDateT := fun a b => Nat.decLe b.publishedParsed a.publishedParsed

/-- The date sort of app0.py (descending by raw date string). -/
def sortA (l : List Item) : List Item := List.insertionSort rDateA l

/-- The date sort of t1.py (descending by `published_parsed`). -/
def sortT (l : List T1Item) : List T1Item := List.insertionSort rDateT l

/-! ## Entry parsing -/

/-- Entry-to-item mapping of `fetch_rss_feeds` in app0.py (lines 355-382):
`guid = entry.get("id", entry.get("link", str(uuid.uuid4())))`,
`link = entry.get("link", "#")`, placeholder title/description, raw
`published` string as `date` (empty when absent).  The fresh uuid token
generated for the entry is the second component of the input pair. -/
def parseEntryA (feedId feedUrl sourceName : Str) (et : RawEntry × Str) : Item :=
  let e := et.1
  { title := e.entryTitle.getD ("без названия".toList)
    desc := e.entrySummary.getD (e.entryDescription.getD ("нет описания".toList))
    link := e.entryLink.getD hashStr
    date := e.entryPublished.getD []
    sourceUrl := feedUrl
    sourceId := feedId
    sourceName := sourceName
    guid := e.entryId.getD (e.entryLink.getD et.2) }

/-- Entry-to-item mapping of `NewsFetcher._parse_entry` in t1.py
(lines 297-327): `guid = getattr(entry, "id", getattr(entry, "guid", link))`
with `link = getattr(entry, "link", "#")`;
`published_parsed = parsed or datetime.now(timezone.utc)` where `now` is
the current fetch time.  HTML cleaning (`_clean_html`) of title and
description is the identity on the already-clean texts modelled here; no
claim depends on it. -/
def parseEntryT (now : Nat) (feedId feedUrl sourceName : Str) (e : RawEntry) : T1Item :=
  let link := e.entryLink.getD hashStr
  { title := e.entryTitle.getD ("Без названия".toList)
    desc := e.entrySummary.getD (e.entryDescription.getD ("Нет описания".toList))
    link := link
    date := e.entryPublished.getD []
    publishedParsed := e.entryPublishedParsed.getD now
    ppAbsent := e.entryPublishedParsed.isNone
    sourceUrl := feedUrl
    sourceId := feedId
    sourceName := sourceName
    guid := e.entryId.getD (e.entryGuid.getD link) }

/-! ## Fetch pipelines -/

/-- `fetch_rss_feeds` of app0.py (lines 341-390): for each selected source
take at most 20 entries (a failed source contributes none), build items,
drop duplicates by guid/link with per-pass seen sets, sort by raw date
string descending, truncate to `MAX_NEWS_ITEMS = 500`.  Sources whose id
is not in `ALL_FEEDS` are skipped before this point, so the input holds
only catalog sources. -/
def fetch_rss_feeds (sources : List (SourceFetch (RawEntry × Str))) : List Item :=
  let items := (sources.map (fun sf =>
    ((sf.result.getD []).take 20).map (parseEntryA sf.feedId sf.feedUrl sf.sourceName))).flatten
  (sortA (dedupPass Item.guid Item.link items [] [])).take 500

/-- `NewsFetcher.fetch_news` of t1.py (lines 235-295), the list it stores
into `self.news`: per source at most 20 entries, parse with the current
fetch time `now`, drop duplicates by guid/link with per-pass seen sets,
sort by `published_parsed` descending, truncate to `max_items`
(default 500). -/
def fetch_news (now maxItems : Nat) (sources : List (SourceFetch RawEntry)) : List T1Item :=
  let items := (sources.map (fun sf =>
    ((sf.result.getD []).take 20).map (parseEntryT now sf.feedId sf.feedUrl sf.sourceName))).flatten
  (sortT (dedupPass T1Item.guid T1Item.link items [] [])).take maxItems

/-! ## The refresh endpoint of app0.py (`POST /fetch`, lines 541-566)

State is the relevant part of `app_state`: the cached item list and
`last_fetch_time` (absent before the first successful fetch).  The
response is one of the two redirects the handler produces: the
"wait N minutes" notify redirect when the gate is closed, or the
success redirect to `/?sort=date`.  `CACHE_DURATION_MINUTES = 5`,
i.e. 300 seconds. -/

structure FetchState where
  news : List Item
  last_fetch_time : Option Nat
deriving DecidableEq, Repr

inductive FetchResponse where
  /-- Redirect to `/?notify=Подождите {minutes_left} минут перед обновлением`. -/
  | waitRedirect (minutesLeft : Nat)
  /-- Redirect to `/?sort=date` after replacing the cache. -/
  | successRedirect
deriving DecidableEq, Repr

/-- The `fetch_news` handler of app0.py: check the freshness gate
(`elapsed < timedelta(minutes=5)`, with
`minutes_left = 5 - int(elapsed.total_seconds() // 60)`); when open,
replace the whole cache with `fetch_rss_feeds(...)` and set
`last_fetch_time = now`. -/
def fetch_news_endpoint (st : FetchState) (now : Nat)
    (sources : List (SourceFetch (RawEntry × Str))) : FetchState × FetchResponse :=
  match st.last_fetch_time with
  | some t =>
    if now - t < 300 then
      (st, .waitRedirect (5 - (now - t) / 60))
    else
      ({ news := fetch_rss_feeds sources, last_fetch_time := some now }, .successRedirect)
  | none =>
    ({ news := fetch_rss_feeds sources, last_fetch_time := some now }, .successRedirect)

/-! ## Saved articles -/

/-- A record of `saved/articles.json` as written by both programs.
(The `savedAt` timestamp and the random `id` of t1.py carry no claim
content and are omitted.) -/
structure SavedArticle where
  sourceUrl : Str
  sourceName : Str
  title : Str
  preview100 : Str
  fullText : Str
deriving DecidableEq, Repr

/-- `full_text.split()`: whitespace-split dropping empty tokens. -/
def splitWs (s : Str) : List Str := (s.splitOnP isSpace).filter (· ≠ [])

/-- The saved record both programs build: preview is the title, a
literal ". ", then the first 100 whitespace tokens of the full text
(the full text verbatim when it has at most 100 tokens). -/
def mkArticleData (title sourceName link fullText : Str) : SavedArticle :=
  let words := splitWs fullText
  let preview100 := if words.length > 100
    then List.intercalate [' '] (words.take 100) else fullText
  { sourceUrl := link
    sourceName := sourceName
    title := title
    preview100 := title ++ ('.' :: ' ' :: preview100)
    fullText := fullText }

/-- `NewsFetcher.load_saved_links` of t1.py (lines 380-390) and the
startup initialisation of app0.py (lines 398-400): the set of `sourceUrl`
values of the persisted records, skipping records whose `sourceUrl` is
falsy (absent or empty). -/
def load_saved_links (store : List SavedArticle) : List Str :=
  (store.filter (fun a => a.sourceUrl ≠ [])).map SavedArticle.sourceUrl

/-- The outcome messages of `NewsFetcher.save_article` in t1.py:
`"Статья не найдена"`, `"Статья уже сохранена"` (returned by both the
in-memory and the on-file duplicate check), `"Не удалось получить текст
статьи"`, and the success message. -/
inductive SaveResult where
  | notFound
  | alreadySaved
  | extractionFailed
  | saved
deriving DecidableEq, Repr

/-- The mutable state `NewsFetcher.save_article` touches: the cached news
list, the in-memory `saved_links` index, and the persisted
`saved/articles.json` collection. -/
structure T1SaveState where
  news : List T1Item
  saved_links : List Str
  store : List SavedArticle
deriving DecidableEq, Repr

/-- `NewsFetcher.save_article` of t1.py (lines 432-516).  `extract` is the
result of the `fetch_full_text_from_page` collaborator (empty string on
failure).  Look the link up in the cache; reject when absent; reject when
the link is in `saved_links`; reject when extraction is empty; reject when
a record with this `sourceUrl` already exists in the file; otherwise
append the new record, rewrite the file, and add the link to
`saved_links`. -/
def save_article (link extract : Str) (st : T1SaveState) : T1SaveState × SaveResult :=
  match st.news.find? (fun n => decide (n.link = link)) with
  | none => (st, .notFound)
  | some article =>
    if link ∈ st.saved_links then (st, .alreadySaved)
    else if extract = [] then (st, .extractionFailed)
    else if st.store.any (fun a => decide (a.sourceUrl = link)) then (st, .alreadySaved)
    else
      ({ st with
          store := st.store ++ [mkArticleData article.title article.sourceName link extract]
          saved_links := link :: st.saved_links }, .saved)

/-- The three redirects the `save_article_endpoint` handler of app0.py
can produce on its non-exception paths: the not-found notify, the
extraction-failure notify, and the plain redirect to `/` that ends the
handler whether or not the inner `save_article` persisted anything. -/
inductive SaveResponseA where
  | notFoundRedirect
  | extractFailedRedirect
  | homeRedirect
deriving DecidableEq, Repr

/-- The state the app0.py save path touches. -/
structure AppSaveState where
  news : List Item
  saved_links : List Str
  store : List SavedArticle
deriving DecidableEq, Repr

/-- `save_article_endpoint` of app0.py (lines 594-636) together with the
inner `save_article` helper (lines 324-338): find the link in the cache
(else notify not-found); extract the full text (empty → notify failure);
build the record; the helper appends and rewrites unless a record with
this `sourceUrl` already exists; on a successful append the link is added
to the in-memory `saved_links`; either way the handler redirects to `/`. -/
def save_article_endpoint (link extract : Str) (st : AppSaveState) :
    AppSaveState × SaveResponseA :=
  match st.news.find? (fun n => decide (n.link = link)) with
  | none => (st, .notFoundRedirect)
  | some article =>
    if extract = [] then (st, .extractFailedRedirect)
    else if st.store.any (fun a => decide (a.sourceUrl = link)) then (st, .homeRedirect)
    else
      ({ st with
          store := st.store ++ [mkArticleData article.title article.sourceName link extract]
          saved_links := link :: st.saved_links }, .homeRedirect)

/-! ## Search -/

/-- Does this t1.py item match the query?  Case-insensitive substring
test against title, description and source display name
(`search_news`, t1.py lines 588-597; the query is lowercased but not
stripped before matching). -/
def matchesT1 (query : Str) (item : T1Item) : Bool :=
  strContains (lower query) (lower item.title)
    || strContains (lower query) (lower item.desc)
    || strContains (lower query) (lower item.sourceName)

/-- `NewsFetcher.search_news` of t1.py (lines 575-599): empty or
whitespace-only query yields `[]`; otherwise filter the cached items by
the case-insensitive substring test. -/
def search_news (query : Str) (news : List T1Item) : List T1Item :=
  if strip query = [] then []
  else news.filter (matchesT1 query)

/-- Does this app0.py item match the (already stripped) query? -/
def matchesA (query : Str) (item : Item) : Bool :=
  strContains (lower query) (lower item.title)
    || strContains (lower query) (lower item.desc)
    || strContains (lower query) (lower item.sourceName)

/-- The `search` handler of app0.py (lines 569-581): FastAPI validates
`min_length=1` on the raw `q` (so `q` is nonempty), the handler strips it
and filters the cache by the case-insensitive substring test — with no
emptiness check after stripping. -/
def search_endpoint (q : Str) (news : List Item) : List Item :=
  let query := strip q
  news.filter (matchesA query)

/-! ## Pagination -/

/-- The values the pagination block of the `index` handler hands to the
template. -/
structure IndexPage where
  page_news : List Item
  page : Nat
  total_pages : Nat
deriving DecidableEq, Repr

/-- The pagination block of the `index` handler in app0.py
(lines 434-440), `PAGE_SIZE = 10`: `total_pages = max(1, ceil(total/10))`,
the page number clamped into `[1, total_pages]`, and the page slice
`sorted_news[start:start+10]`. -/
def paginate_index (sorted_news : List Item) (page : Nat) : IndexPage :=
  let total_items := sorted_news.length
  let total_pages := max 1 ((total_items + 10 - 1) / 10)
  let page' := max 1 (min page total_pages)
  let start_idx := (page' - 1) * 10
  { page_news := (sorted_news.drop start_idx).take 10
    page := page'
    total_pages := total_pages }

/-- The result dict of `NewsFetcher.get_saved_articles`. -/
structure PageResult where
  articles : List SavedArticle
  total : Nat
  page : Nat
  total_pages : Nat
  page_size : Nat
deriving DecidableEq, Repr

/-- `NewsFetcher.get_saved_articles` of t1.py (lines 518-571).  `stored`
is the outcome of opening `saved/articles.json`: `none` when the file
does not exist (lines 531-538) — the JSON-load `except` path (lines
563-571) returns the identical dict — and `some all_articles` when the
file loads.  On the `none` paths the function returns zero articles,
`total_pages = 0` and the REQUESTED page number unclamped (`"page": page`).
On the main path `total_pages = (total + page_size - 1) // page_size`
with no minimum; `page = max(1, min(page, total_pages if total_pages > 0
else 1))`; the page slice is `all_articles[start:start+page_size]`. -/
def get_saved_articles (stored : Option (List SavedArticle))
    (page page_size : Nat) : PageResult :=
  match stored with
  | none =>
    { articles := []
      total := 0
      page := page
      total_pages := 0
      page_size := page_size }
  | some all_articles =>
    let total := all_articles.length
    let total_pages := (total + page_size - 1) / page_size
    let page' := max 1 (min page (if total_pages > 0 then total_pages else 1))
    let start_idx := (page' - 1) * page_size
    { articles := (all_articles.drop start_idx).take page_size
      total := total
      page := page'
      total_pages := total_pages
      page_size := page_size }

/-! ## Seen/new tracking -/

/-- The fingerprint both programs use: `link + title` (plain
concatenation). -/
def fingerprintT (item : T1Item) : Str := item.link ++ item.title

/-- Fingerprint of an app0.py item (`f"{link}{title}"`). -/
def fingerprintA (item : Item) : Str := item.link ++ item.title

/-- `NewsFetcher.get_new_news_count` of t1.py (lines 355-362): walk the
cached items, counting those whose fingerprint is not in
`seen_news_ids`. -/
def get_new_news_count (news : List T1Item) (seen : List Str) : Nat :=
  news.foldl (fun count item => if fingerprintT item ∈ seen then count else count + 1) 0

/-- The `new_count` computation of the `index` handler in app0.py
(lines 448-452): `sum(1 for n in news if fingerprint not in seen_news)`. -/
def new_count (news : List Item) (seen : List Str) : Nat :=
  news.countP (fun n => decide (fingerprintA n ∉ seen))

/-- `NewsFetcher.mark_as_viewed`: add the item's fingerprint to the
viewed set. -/
def mark_as_viewed (seen : List Str) (item : T1Item) : List Str :=
  fingerprintT item :: seen

/-- `NewsFetcher.clear_viewed_cache` / the `/clear-cache` handler: the
viewed set becomes empty. -/
def clear_viewed_cache : List Str := []

/-- The count of cached items whose fingerprint is absent from the viewed
set, stated as the spec states it (§4.5 `computeNewCount`). -/
def newCountSpec (news : List T1Item) (seen : List Str) : Nat :=
  (news.filter (fun item => decide (fingerprintT item ∉ seen))).length


/-! ## Concrete demonstration values (used by witnesses and
counterexamples) -/

/-- A sample cached app0.py item. -/
def demoItem : Item where
  title := "title".toList
  desc := "desc".toList
  link := "link".toList
  date := "2024".toList
  sourceUrl := "url".toList
  sourceId := "bbc".toList
  sourceName := "BBC News".toList
  guid := "guid".toList

/-- A sample cached t1.py item. -/
def demoT1Item : T1Item where
  title := "title".toList
  desc := "desc".toList
  link := "link".toList
  date := "2024".toList
  publishedParsed := 50
  ppAbsent := false
  sourceUrl := "url".toList
  sourceId := "bbc".toList
  sourceName := "BBC News".toList
  guid := "guid".toList

/-- A source whose network fetch failed. -/
def failedSource : SourceFetch (RawEntry × Str) where
  feedId := "lenta".toList
  feedUrl := "feedurl".toList
  sourceName := "Lenta".toList
  result := none

/-- An entry carrying a parsed publication date. -/
def entryPresent : RawEntry where
  entryLink := some ("a".toList)
  entryPublishedParsed := some 50

/-- An entry with no publication date at all. -/
def entryAbsent : RawEntry where
  entryLink := some ("b".toList)

/-- A source delivering one dated and one dateless entry. -/
def srcPQ : SourceFetch RawEntry where
  feedId := "bbc".toList
  feedUrl := "feedurl".toList
  sourceName := "BBC News".toList
  result := some [entryPresent, entryAbsent]

/-- An entry with neither id, guid nor link (title "a"). -/
def entryNoLinkA : RawEntry where
  entryTitle := some ("a".toList)

/-- An entry with neither id, guid nor link (title "b"). -/
def entryNoLinkB : RawEntry where
  entryTitle := some ("b".toList)

/-- A one-character whitespace-only query (passes the `min_length=1`
validation of the app0.py search route). -/
def spaceStr : Str := [' ']

/-- A sample nonempty extracted full text. -/
def demoText : Str := "body".toList

/-- The save state holding exactly the sample item, nothing saved yet. -/
def demoSaveState : AppSaveState where
  news := [demoItem]
  saved_links := []
  store := []

/-- The t1.py save state holding exactly the sample item, nothing saved
yet. -/
def demoT1SaveState : T1SaveState where
  news := [demoT1Item]
  saved_links := []
  store := []

/-! # Theorems -/

/-! ## String lemmas -/

@[simp] theorem strLe_nil_left (y : Str) : strLe [] y = true := by
  cases y <;> rfl

theorem strLe_nil_right_iff (x : Str) : strLe x [] = true ↔ x = [] := by
  cases x <;> simp [strLe]

theorem strLe_total (x y : Str) : strLe x y = true ∨ strLe y x = true := by
  induction x generalizing y with
  | nil => left; simp
  | cons a as ih =>
    cases y with
    | nil => right; simp
    | cons b bs =>
      by_cases hab : a.toNat = b.toNat
      · rcases ih bs with h | h
        · left; simp [strLe, hab, h]
        · right; simp [strLe, hab.symm, h]
      · rcases Nat.lt_or_ge a.toNat b.toNat with hlt | hge
        · left; simp [strLe, hab, hlt]
        · right
          have hba : b.toNat ≠ a.toNat := fun h => hab h.symm
          have : b.toNat < a.toNat := lt_of_le_of_ne hge hba
          simp [strLe, hba, this]

theorem strLe_trans (x y z : Str) (hxy : strLe x y = true)
    (hyz : strLe y z = true) : strLe x z = true := by
  induction x generalizing y z with
  | nil => simp
  | cons a as ih =>
    cases y with
    | nil => simp [strLe] at hxy
    | cons b bs =>
      cases z with
      | nil => simp [strLe] at hyz
      | cons c cs =>
        simp only [strLe] at hxy hyz ⊢
        by_cases hab : a.toNat = b.toNat
        · by_cases hbc : b.toNat = c.toNat
          · rw [if_pos hab] at hxy
            rw [if_pos hbc] at hyz
            rw [if_pos (hab.trans hbc)]
            exact ih bs cs hxy hyz
          · rw [if_pos hab] at hxy
            rw [if_neg hbc] at hyz
            have h2 : b.toNat < c.toNat := of_decide_eq_true hyz
            have hac : a.toNat ≠ c.toNat := by omega
            rw [if_neg hac]
            exact decide_eq_true (by omega)
        · by_cases hbc : b.toNat = c.toNat
          · rw [if_neg hab] at hxy
            rw [if_pos hbc] at hyz
            have h1 : a.toNat < b.toNat := of_decide_eq_true hxy
            have hac : a.toNat ≠ c.toNat := by omega
            rw [if_neg hac]
            exact decide_eq_true (by omega)
          · rw [if_neg hab] at hxy
            rw [if_neg hbc] at hyz
            have h1 : a.toNat < b.toNat := of_decide_eq_true hxy
            have h2 : b.toNat < c.toNat := of_decide_eq_true hyz
            have hac : a.toNat ≠ c.toNat := by omega
            rw [if_neg hac]
            exact decide_eq_true (by omega)


theorem strStartsWith_iff (needle hay : Str) :
    strStartsWith needle hay = true ↔ ∃ r, hay = needle ++ r := by
  induction needle generalizing hay with
  | nil => simp [strStartsWith]
  | cons a as ih =>
    cases hay with
    | nil => simp [strStartsWith]
    | cons b bs =>
      simp only [strStartsWith, Bool.and_eq_true, decide_eq_true_eq, ih]
      constructor
      · rintro ⟨hab, r, hr⟩
        exact ⟨r, by simp [hab.symm, hr]⟩
      · rintro ⟨r, hr⟩
        simp only [List.cons_append, List.cons.injEq] at hr
        exact ⟨hr.1.symm, r, hr.2⟩


theorem strContains_iff (needle hay : Str) :
    strContains needle hay = true ↔ ∃ l r, hay = l ++ needle ++ r := by
  induction hay with
  | nil =>
    simp only [strContains, strStartsWith_iff]
    constructor
    · rintro ⟨r, hr⟩; exact ⟨[], r, by simpa using hr⟩
    · rintro ⟨l, r, hr⟩
      have hl : l = [] := by
        cases l with
        | nil => rfl
        | cons x xs => simp at hr
      subst hl
      exact ⟨r, by simpa using hr⟩
  | cons c t ih =>
    simp only [strContains, Bool.or_eq_true, strStartsWith_iff, ih]
    constructor
    · rintro (⟨r, hr⟩ | ⟨l, r, hr⟩)
      · exact ⟨[], r, by simpa using hr⟩
      · exact ⟨c :: l, r, by simp [hr]⟩
    · rintro ⟨l, r, hr⟩
      cases l with
      | nil => exact Or.inl ⟨r, by simpa using hr⟩
      | cons x xs =>
        simp only [List.cons_append, List.cons.injEq] at hr
        exact Or.inr ⟨xs, r, by simp [hr.2]⟩

@[simp] theorem strContains_nil_needle (hay : Str) :
    strContains [] hay = true := by
  cases hay <;> simp [strContains, strStartsWith]


theorem dedupPass_not_seen (g l : α → Str) :
    ∀ (xs : List α) (sg sl : List Str) (x : α),
      x ∈ dedupPass g l xs sg sl → g x ∉ sg ∧ l x ∉ sl := by
  intro xs
  induction xs with
  | nil => intro sg sl x hx; simp [dedupPass] at hx
  | cons a as ih =>
    intro sg sl x hx
    by_cases h : g a ∈ sg ∨ l a ∈ sl
    · rw [dedupPass, if_pos h] at hx
      exact ih sg sl x hx
    · rw [dedupPass, if_neg h] at hx
      push_neg at h
      rcases List.mem_cons.mp hx with rfl | hx'
      · exact h
      · have := ih _ _ x hx'
        exact ⟨fun hg => this.1 (List.mem_cons_of_mem _ hg),
               fun hl => this.2 (List.mem_cons_of_mem _ hl)⟩

theorem dedupPass_guid_nodup (g l : α → Str) :
    ∀ (xs : List α) (sg sl : List Str),
      ((dedupPass g l xs sg sl).map g).Nodup := by
  intro xs
  induction xs with
  | nil => intro sg sl; simp [dedupPass]
  | cons a as ih =>
    intro sg sl
    by_cases h : g a ∈ sg ∨ l a ∈ sl
    · rw [dedupPass, if_pos h]; exact ih sg sl
    · rw [dedupPass, if_neg h]
      simp only [List.map_cons, List.nodup_cons]
      refine ⟨?_, ih _ _⟩
      intro hmem
      rcases List.mem_map.mp hmem with ⟨y, hy, hgy⟩
      have := (dedupPass_not_seen g l as _ _ y hy).1
      exact this (by simp [hgy])

theorem dedupPass_link_nodup (g l : α → Str) :
    ∀ (xs : List α) (sg sl : List Str),
      ((dedupPass g l xs sg sl).map l).Nodup := by
  intro xs
  induction xs with
  | nil => intro sg sl; simp [dedupPass]
  | cons a as ih =>
    intro sg sl
    by_cases h : g a ∈ sg ∨ l a ∈ sl
    · rw [dedupPass, if_pos h]; exact ih sg sl
    · rw [dedupPass, if_neg h]
      simp only [List.map_cons, List.nodup_cons]
      refine ⟨?_, ih _ _⟩
      intro hmem
      rcases List.mem_map.mp hmem with ⟨y, hy, hly⟩
      have := (dedupPass_not_seen g l as _ _ y hy).2
      exact this (by simp [hly])

/-! ## Merge pipeline lemmas -/

theorem sortTake_nodup {α : Type} (r : α → α → Prop) [DecidableRel r]
    (f : α → Str) (l : List α) (n : Nat) (h : (l.map f).Nodup) :
    (((List.insertionSort r l).take n).map f).Nodup := by
  have hperm : List.Perm ((List.insertionSort r l).map f) (l.map f) :=
    (List.perm_insertionSort r l).map f
  have hnodup : ((List.insertionSort r l).map f).Nodup := hperm.nodup_iff.mpr h
  rw [List.map_take]
  exact List.Nodup.sublist (List.take_sublist _ _) hnodup

theorem take_length_le {α : Type} (l : List α) (n : Nat) :
    (l.take n).length ≤ n := by
  simp [List.length_take]

theorem all_failed_items_nil :
    ∀ sources : List (SourceFetch (RawEntry × Str)),
      (∀ s ∈ sources, s.result = none) →
      (sources.map (fun sf =>
        ((sf.result.getD []).take 20).map
          (parseEntryA sf.feedId sf.feedUrl sf.sourceName))).flatten = [] := by
  intro sources
  induction sources with
  | nil => intro _; rfl
  | cons s ss ih =>
    intro h
    have hs : s.result = none := h s (by simp)
    have hss := ih (fun x hx => h x (List.mem_cons_of_mem _ hx))
    simp only [List.map_cons, List.flatten_cons, hs, Option.getD_none,
      List.take_nil, List.map_nil, List.nil_append]
    exact hss

/-- A fetch cycle in which every source failed produces the empty item
list (app0.py). -/
theorem fetch_rss_feeds_all_failed
    (sources : List (SourceFetch (RawEntry × Str)))
    (h : ∀ s ∈ sources, s.result = none) : fetch_rss_feeds sources = [] := by
  simp only [fetch_rss_feeds]
  rw [all_failed_items_nil sources h]
  rfl

/-! ## Claim C1 -/

/-- C1: in every merge pass of both implementations (the `fetch_rss_feeds`
pipeline of app0.py and the `fetch_news` pipeline of t1.py), the resulting
cached list contains no two items with equal guid, no two items with equal
link, and has length at most the cap (`MAX_NEWS_ITEMS = 500` in app0.py,
`max_items` — default 500 — in t1.py).  The underlying `dedupPass` walks
the items with `seen_guids`/`seen_links` starting empty for the pass and
accepts an item only when its guid and link are absent from them. -/
theorem C1_merge_unique_and_capped
    (sourcesA : List (SourceFetch (RawEntry × Str)))
    (now maxItems : Nat) (sourcesT : List (SourceFetch RawEntry)) :
    ((fetch_rss_feeds sourcesA).map Item.guid).Nodup ∧
    ((fetch_rss_feeds sourcesA).map Item.link).Nodup ∧
    (fetch_rss_feeds sourcesA).length ≤ 500 ∧
    ((fetch_news now maxItems sourcesT).map T1Item.guid).Nodup ∧
    ((fetch_news now maxItems sourcesT).map T1Item.link).Nodup ∧
    (fetch_news now maxItems sourcesT).length ≤ maxItems := by
  refine ⟨?_, ?_, ?_, ?_, ?_, ?_⟩
  · exact sortTake_nodup rDateA Item.guid _ 500
      (dedupPass_guid_nodup Item.guid Item.link _ [] [])
  · exact sortTake_nodup rDateA Item.link _ 500
      (dedupPass_link_nodup Item.guid Item.link _ [] [])
  · exact take_length_le _ 500
  · exact sortTake_nodup rDateT T1Item.guid _ maxItems
      (dedupPass_guid_nodup T1Item.guid T1Item.link _ [] [])
  · exact sortTake_nodup rDateT T1Item.link _ maxItems
      (dedupPass_link_nodup T1Item.guid T1Item.link _ [] [])
  · exact take_length_le _ maxItems

/-! ## Claim C4 -/

/-- C4: a `POST /fetch` request made while `now - last_fetch_time` is
below the refresh interval (`CACHE_DURATION_MINUTES = 5`, 300 seconds) is
rejected with the wait redirect telling the caller
`5 - elapsed_seconds // 60` minutes remain; the state — in particular the
cached item list produced by the preceding successful refresh — is
untouched and no fetch is attempted (app0.py lines 541-553). -/
theorem C4_refresh_gate_rejects (st : FetchState) (now t : Nat)
    (sources : List (SourceFetch (RawEntry × Str)))
    (hlast : st.last_fetch_time = some t)
    (hgate : now - t < 300) :
    fetch_news_endpoint st now sources =
      (st, FetchResponse.waitRedirect (5 - (now - t) / 60)) := by
  simp [fetch_news_endpoint, hlast, hgate]

/-- Witness for C4: at `last_fetch_time = 100`, a request at `now = 350`
(250 s elapsed) is rejected with 1 minute left and the state preserved. -/
theorem C4_refresh_gate_rejects_witness :
    ({ news := [demoItem], last_fetch_time := some 100 } : FetchState).last_fetch_time
        = some 100 ∧
    (350 : Nat) - 100 < 300 ∧
    fetch_news_endpoint { news := [demoItem], last_fetch_time := some 100 } 350 [failedSource]
      = ({ news := [demoItem], last_fetch_time := some 100 },
         FetchResponse.waitRedirect 1) :=
  ⟨rfl, by decide,
    C4_refresh_gate_rejects { news := [demoItem], last_fetch_time := some 100 }
      350 100 [failedSource] rfl (by decide)⟩

/-! ## Claim C8 -/

theorem get_new_news_count_from (news : List T1Item) (seen : List Str) :
    ∀ acc : Nat,
      news.foldl (fun count item =>
        if fingerprintT item ∈ seen then count else count + 1) acc
      = acc + newCountSpec news seen := by
  induction news with
  | nil => intro acc; simp [newCountSpec]
  | cons a as ih =>
    intro acc
    by_cases h : fingerprintT a ∈ seen
    · simp only [List.foldl_cons, if_pos h, ih, newCountSpec, List.filter_cons]
      simp [h]
    · simp only [List.foldl_cons, if_neg h, ih, newCountSpec, List.filter_cons]
      simp [h]
      omega

theorem newCountSpec_anti (news : List T1Item) (s t : List Str)
    (hsub : ∀ x, x ∈ s → x ∈ t) :
    newCountSpec news t ≤ newCountSpec news s := by
  induction news with
  | nil => simp [newCountSpec]
  | cons a as ih =>
    simp only [newCountSpec, List.filter_cons] at ih ⊢
    by_cases h : fingerprintT a ∈ t
    · have : (decide (fingerprintT a ∉ t)) = false := by simp [h]
      rw [this]
      by_cases h2 : fingerprintT a ∈ s
      · have : (decide (fingerprintT a ∉ s)) = false := by simp [h2]
        rw [this]
        exact ih
      · have : (decide (fingerprintT a ∉ s)) = true := by simp [h2]
        rw [this]
        simp only [cond_false, cond_true, List.length_cons]
        exact Nat.le_succ_of_le ih
    · have hns : fingerprintT a ∉ s := fun hx => h (hsub _ hx)
      have h1 : (decide (fingerprintT a ∉ t)) = true := by simp [h]
      have h2 : (decide (fingerprintT a ∉ s)) = true := by simp [hns]
      rw [h1, h2]
      simp only [cond_true, List.length_cons]
      exact Nat.succ_le_succ ih

theorem mark_as_viewed_superset (marks : List T1Item) :
    ∀ (seen : List Str) (x : Str),
      x ∈ seen → x ∈ marks.foldl mark_as_viewed seen := by
  induction marks with
  | nil => intro seen x hx; simpa using hx
  | cons m ms ih =>
    intro seen x hx
    simp only [List.foldl_cons]
    exact ih _ x (List.mem_cons_of_mem _ hx)

/-- C8: `get_new_news_count` (t1.py lines 355-362) and the `new_count`
sum of the app0.py `index` handler both equal the number of cached items
whose fingerprint (`link ++ title`) is absent from the viewed set; the
count is monotonically non-increasing across any sequence of
`mark_as_viewed` calls with the cache unchanged; and immediately after
`clear_viewed_cache` it equals the full cached count. -/
theorem C8_new_count_correct (news : List T1Item) (newsA : List Item)
    (seen : List Str) (marks : List T1Item) :
    get_new_news_count news seen = newCountSpec news seen ∧
    new_count newsA seen
      = (newsA.filter (fun n => decide (fingerprintA n ∉ seen))).length ∧
    get_new_news_count news (marks.foldl mark_as_viewed seen)
      ≤ get_new_news_count news seen ∧
    get_new_news_count news clear_viewed_cache = news.length := by
  refine ⟨?_, ?_, ?_, ?_⟩
  · simpa using get_new_news_count_from news seen 0
  · simp [new_count, List.countP_eq_length_filter]
  · have h1 : get_new_news_count news (marks.foldl mark_as_viewed seen)
        = newCountSpec news (marks.foldl mark_as_viewed seen) := by
      simpa using get_new_news_count_from news _ 0
    have h2 : get_new_news_count news seen = newCountSpec news seen := by
      simpa using get_new_news_count_from news seen 0
    rw [h1, h2]
    exact newCountSpec_anti news seen _ (mark_as_viewed_superset marks seen)
  · have h1 : get_new_news_count news clear_viewed_cache
        = newCountSpec news clear_viewed_cache := by
      simpa using get_new_news_count_from news _ 0
    rw [h1]
    simp [newCountSpec, clear_viewed_cache]


/-! ## Claim C2 -/

/-- Counterexample to C2: a refresh at `now = 1000` (gate long open,
previous refresh at 0) in which the single selected source cannot be
contacted (`result = none`).  The claim says such a total-failure refresh
reports failure, retains the previously cached list and leaves
`last_fetch_time` untouched.  The code instead returns the success
redirect, replaces the cached `[demoItem]` with the empty list, and sets
`last_fetch_time = 1000`: `fetch_rss_feeds` swallows every per-source
error inside its loop, so the handler cannot distinguish total failure
from an empty-but-successful cycle (app0.py lines 341-390 and 541-566;
t1.py `fetch_news` behaves the same way, lines 283-292). -/
theorem C2_total_failure_counterexample :
    fetch_news_endpoint { news := [demoItem], last_fetch_time := some 0 } 1000
        [failedSource]
      = ({ news := [], last_fetch_time := some 1000 },
         FetchResponse.successRedirect) ∧
    [demoItem] ≠ ([] : List Item) ∧
    some (0 : Nat) ≠ some (1000 : Nat) := by
  refine ⟨?_, by decide, by decide⟩
  rfl

/-- C2 as amended: when the gate is open and no source can be contacted,
the refresh is reported as a success, the whole cached list is replaced
by the empty list, and `last_fetch_time` is reset to `now`; the prior
cache is not retained. -/
theorem C2_total_failure_replaces_cache (st : FetchState) (now : Nat)
    (sources : List (SourceFetch (RawEntry × Str)))
    (hopen : ∀ t, st.last_fetch_time = some t → ¬ now - t < 300)
    (hfail : ∀ s ∈ sources, s.result = none) :
    fetch_news_endpoint st now sources
      = ({ news := [], last_fetch_time := some now },
         FetchResponse.successRedirect) := by
  have hempty := fetch_rss_feeds_all_failed sources hfail
  cases hl : st.last_fetch_time with
  | none => simp [fetch_news_endpoint, hl, hempty]
  | some t => simp [fetch_news_endpoint, hl, hempty, hopen t hl]

/-- Witness for the amended C2 at a concrete input: previous refresh at
0, request at 1000, one unreachable source. -/
theorem C2_total_failure_replaces_cache_witness :
    (∀ s ∈ [failedSource], s.result = none) ∧
    fetch_news_endpoint { news := [demoItem], last_fetch_time := some 0 } 1000
        [failedSource]
      = ({ news := [], last_fetch_time := some 1000 },
         FetchResponse.successRedirect) :=
  ⟨by intro s hs; simp at hs; rw [hs]; rfl,
   C2_total_failure_replaces_cache
     { news := [demoItem], last_fetch_time := some 0 } 1000 [failedSource]
     (by intro t ht; simp at ht; omega)
     (by intro s hs; simp at hs; rw [hs]; rfl)⟩


/-! ## Claim C3 -/

/-- Counterexample to C3: the t1.py fetch pipeline at fetch time
`now = 100` over one source delivering `entryPresent` (parsed date 50)
and `entryAbsent` (no date).  `_parse_entry` stores
`published_parsed or datetime.now(...)`, so the dateless entry gets key
100 and the descending sort places it FIRST: the result's `ppAbsent`
flags read `[true, false]`, i.e. the item with absent `publishedAt` is
ordered before the item with a present one, contradicting
"absent values sort as oldest, never taking priority" (t1.py lines
287-291 and 306-319). -/
theorem C3_absent_date_counterexample :
    (fetch_news 100 500 [srcPQ]).map T1Item.ppAbsent = [true, false] := by
  decide

/-- C3 as amended: the date sort never raises (both sorts are total
functions); in app0.py every item whose raw `date` string is empty — in
particular every item whose `published` field was absent — is ordered
after every item with a nonempty `date` under the default
descending-by-date-string order; in t1.py an absent `publishedAt` is
replaced at parse time by the current fetch time, so the item carries the
newest key and the descending sort orders it before every item with an
older `publishedAt` (absent values take top priority rather than
sorting last). -/
theorem C3_amended_sort_order :
    (∀ l : List Item,
      (sortA l).Pairwise (fun a b => a.date = [] → b.date = [])) ∧
    (∀ (now : Nat) (fid furl nm : Str) (e : RawEntry),
      e.entryPublishedParsed = none →
      (parseEntryT now fid furl nm e).publishedParsed = now ∧
      (parseEntryT now fid furl nm e).ppAbsent = true) ∧
    (∀ l : List T1Item,
      (sortT l).Pairwise (fun a b => b.publishedParsed ≤ a.publishedParsed)) := by
  refine ⟨?_, ?_, ?_⟩
  · intro l
    haveI : IsTotal Item rDateA := ⟨fun a b => strLe_total b.date a.date⟩
    haveI : IsTrans Item rDateA :=
      ⟨fun _ b _ hab hbc => strLe_trans _ b.date _ hbc hab⟩
    have hs : List.Sorted rDateA (List.insertionSort rDateA l) :=
      List.sorted_insertionSort rDateA l
    refine List.Pairwise.imp ?_ hs
    intro a b hab ha
    simp only [rDateA] at hab
    rw [ha] at hab
    exact (strLe_nil_right_iff b.date).mp hab
  · intro now fid furl nm e he
    simp [parseEntryT, he]
  · intro l
    haveI : IsTotal T1Item rDateT :=
      ⟨fun a b => (Nat.le_total b.publishedParsed a.publishedParsed).imp id id⟩
    haveI : IsTrans T1Item rDateT := ⟨fun _ _ _ hab hbc => Nat.le_trans hbc hab⟩
    exact List.sorted_insertionSort rDateT l

/-- Witness for the amended C3: a sort of the sample item and a parse of
the dateless entry at `now = 7`. -/
theorem C3_amended_sort_order_witness :
    (sortA [demoItem]).Pairwise (fun a b => a.date = [] → b.date = []) ∧
    (parseEntryT 7 [] [] [] entryAbsent).publishedParsed = 7 ∧
    (parseEntryT 7 [] [] [] entryAbsent).ppAbsent = true :=
  ⟨C3_amended_sort_order.1 [demoItem],
   (C3_amended_sort_order.2.1 7 [] [] [] entryAbsent rfl).1,
   (C3_amended_sort_order.2.1 7 [] [] [] entryAbsent rfl).2⟩


/-! ## Claim C7 -/

/-- Counterexample to C7: `NewsFetcher.get_saved_articles` over an empty
collection violates the claim twice.  When `saved/articles.json` does not
exist — the ordinary empty-collection case (t1.py lines 531-538; the
`except` path, lines 563-571, returns the identical dict) — it returns
`total_pages = 0`, not the claimed minimum of 1, and the requested page
number UNCLAMPED: asking for page 5 of the empty collection returns
`page = 5`, not a value in `[1, totalPages]`.  When the file loads as an
empty list, the main path computes `total_pages = (0 + 10 - 1) // 10 = 0`
as well (line 545 has no `max(1, ...)`; contrast app0.py lines 436 and
691). -/
theorem C7_empty_total_pages_counterexample :
    (get_saved_articles none 5 10).total_pages = 0 ∧
    (get_saved_articles none 5 10).page = 5 ∧
    (get_saved_articles none 5 10).articles = [] ∧
    (get_saved_articles (some []) 1 10).total_pages = 0 := by
  decide

theorem ceil_div_bounds (n ps : Nat) (hps : 0 < ps) :
    n ≤ ((n + ps - 1) / ps) * ps ∧
    (0 < n → (((n + ps - 1) / ps) - 1) * ps < n) := by
  have h := Nat.div_add_mod (n + ps - 1) ps
  have hlt : (n + ps - 1) % ps < ps := Nat.mod_lt _ hps
  have hsub : (((n + ps - 1) / ps) - 1) * ps
      = ((n + ps - 1) / ps) * ps - 1 * ps := Nat.sub_mul _ _ _
  rw [Nat.one_mul] at hsub
  rw [Nat.mul_comm ((n + ps - 1) / ps) ps] at hsub ⊢
  constructor
  · generalize hM : ps * ((n + ps - 1) / ps) = m at h ⊢
    omega
  · intro hn
    rw [hsub]
    generalize hM : ps * ((n + ps - 1) / ps) = m at h ⊢
    omega

/-- C7 as amended: the app0.py pagination (`index` handler and `/saved`
handler) computes `total_pages = max(1, ceil(count/10))` — minimum 1 even
over an empty collection, where it yields page 1 and zero items — clamps
the page number into `[1, total_pages]`, and returns a slice of at most
`PAGE_SIZE` items.  `NewsFetcher.get_saved_articles` in t1.py: when the
saved file is missing or unreadable (the ordinary empty-collection case)
it returns `total_pages = 0`, zero articles, and the requested page
number UNCLAMPED; when the file loads it computes the plain ceiling
`(count + page_size - 1) // page_size` WITHOUT the minimum — a loaded
empty list still yields `total_pages = 0` with zero items — and clamps
the page into `[1, max(1, total_pages)]`, returning a slice of at most
`page_size` items.  Neither divides by zero for a positive page size
(and the app0.py divisor is the constant 10). -/
theorem C7_amended_pagination (l : List Item) (page : Nat)
    (arts : List SavedArticle) (p ps : Nat) (hps : 0 < ps) :
    (1 ≤ (paginate_index l page).total_pages ∧
     (paginate_index l page).total_pages = max 1 ((l.length + 9) / 10) ∧
     (l = [] → (paginate_index l page).total_pages = 1 ∧
               (paginate_index l page).page_news = []) ∧
     1 ≤ (paginate_index l page).page ∧
     (paginate_index l page).page ≤ (paginate_index l page).total_pages ∧
     l.length ≤ (paginate_index l page).total_pages * 10 ∧
     (l ≠ [] → ((paginate_index l page).total_pages - 1) * 10 < l.length) ∧
     (paginate_index l page).page_news.length ≤ 10) ∧
    (get_saved_articles none p ps
        = { articles := [], total := 0, page := p, total_pages := 0,
            page_size := ps } ∧
     (get_saved_articles (some arts) p ps).total_pages
        = (arts.length + ps - 1) / ps ∧
     (arts = [] → (get_saved_articles (some arts) p ps).total_pages = 0 ∧
                  (get_saved_articles (some arts) p ps).articles = []) ∧
     1 ≤ (get_saved_articles (some arts) p ps).page ∧
     (get_saved_articles (some arts) p ps).page
        ≤ max 1 (get_saved_articles (some arts) p ps).total_pages ∧
     arts.length ≤ ((arts.length + ps - 1) / ps) * ps ∧
     (arts ≠ [] → (((arts.length + ps - 1) / ps) - 1) * ps < arts.length) ∧
     (get_saved_articles (some arts) p ps).articles.length ≤ ps) := by
  constructor
  · refine ⟨?_, ?_, ?_, ?_, ?_, ?_, ?_, ?_⟩
    · simp [paginate_index]
    · simp [paginate_index]
    · intro hl
      subst hl
      simp [paginate_index]
    · simp [paginate_index]
    · simp only [paginate_index]
      omega
    · simp only [paginate_index]
      omega
    · intro hl
      have hlen : 0 < l.length := List.length_pos.mpr hl
      simp only [paginate_index]
      omega
    · simp only [paginate_index]
      simp [List.length_take]
  · refine ⟨rfl, rfl, ?_, ?_, ?_, ?_, ?_, ?_⟩
    · intro ha
      subst ha
      refine ⟨?_, ?_⟩
      · simp only [get_saved_articles, List.length_nil]
        exact Nat.div_eq_of_lt (by omega)
      · simp [get_saved_articles]
    · simp [get_saved_articles]
    · simp only [get_saved_articles]
      rcases Nat.eq_zero_or_pos ((arts.length + ps - 1) / ps) with h0 | h0
      · rw [h0]
        simp
      · rw [if_pos h0]
        omega
    · exact (ceil_div_bounds arts.length ps hps).1
    · intro ha
      have hlen : 0 < arts.length := List.length_pos.mpr ha
      exact (ceil_div_bounds arts.length ps hps).2 hlen
    · simp only [get_saved_articles]
      simp [List.length_take]

/-- Witness for the amended C7 at concrete inputs: the missing saved
file asked for page 7, the loaded-but-empty collection, and the empty
app0.py cache, all with page size 10. -/
theorem C7_amended_pagination_witness :
    (0 : Nat) < 10 ∧
    (get_saved_articles none 7 10).page = 7 ∧
    (get_saved_articles (some []) 7 10).total_pages = 0 ∧
    (get_saved_articles (some []) 7 10).page = 1 ∧
    (paginate_index [] 7).total_pages = 1 := by
  refine ⟨by decide, ?_, ?_, ?_, ?_⟩
  · rw [(C7_amended_pagination [] 7 [] 7 10 (by decide)).2.1]
  · exact ((C7_amended_pagination [] 7 [] 7 10 (by decide)).2.2.2.1 rfl).1
  · have h1 := (C7_amended_pagination [] 7 [] 7 10 (by decide)).2.2.2.2.1
    have h2 := (C7_amended_pagination [] 7 [] 7 10 (by decide)).2.2.2.2.2.1
    have h3 := ((C7_amended_pagination [] 7 [] 7 10 (by decide)).2.2.2.1 rfl).1
    rw [h3] at h2
    omega
  · exact ((C7_amended_pagination [] 7 [] 7 10 (by decide)).1.2.2.1 rfl).1

/-! ## Claim C6 -/

/-- Counterexample to C6: the claim says a whitespace-only query yields
zero results, never the full cached set.  The app0.py `search` handler
accepts `q = " "` (it passes the `min_length=1` validation), strips it to
the empty string, and `"" in s` holds for every string, so the handler
returns the ENTIRE cache (app0.py lines 569-581).  Only t1.py's
`search_news` has the emptiness check. -/
theorem C6_whitespace_query_counterexample :
    strip spaceStr = [] ∧
    search_endpoint spaceStr [demoItem] = [demoItem] ∧
    ([demoItem] : List Item) ≠ [] := by
  refine ⟨by decide, by decide, by decide⟩

/-- C6 as amended: `search_news` (t1.py) returns zero results for every
empty or whitespace-only query, and otherwise returns exactly the cached
items — in cache order, as a sublist of the cache — for which the
lowercased query occurs as a substring of the lowercased title,
description, or source display name; the app0.py `search` handler rejects
an empty `q` by validation but, for a whitespace-only `q`, strips it to
the empty string and returns the FULL cached set; for queries that remain
nonempty after stripping it filters by the same substring test on the
stripped query. -/
theorem C6_amended_search (q : Str) (news : List T1Item) (newsA : List Item) :
    (strip q = [] → search_news q news = []) ∧
    (strip q ≠ [] → ∀ item, item ∈ search_news q news ↔
        item ∈ news ∧
        ((∃ l r, lower item.title = l ++ lower q ++ r) ∨
         (∃ l r, lower item.desc = l ++ lower q ++ r) ∨
         (∃ l r, lower item.sourceName = l ++ lower q ++ r))) ∧
    (strip q ≠ [] → (search_news q news).Sublist news) ∧
    (strip q = [] → search_endpoint q newsA = newsA) ∧
    (∀ itemA, itemA ∈ search_endpoint q newsA ↔
        itemA ∈ newsA ∧
        ((∃ l r, lower itemA.title = l ++ lower (strip q) ++ r) ∨
         (∃ l r, lower itemA.desc = l ++ lower (strip q) ++ r) ∨
         (∃ l r, lower itemA.sourceName = l ++ lower (strip q) ++ r))) := by
  refine ⟨?_, ?_, ?_, ?_, ?_⟩
  · intro h
    simp [search_news, h]
  · intro h item
    rw [search_news, if_neg h]
    simp only [List.mem_filter, matchesT1, Bool.or_eq_true, strContains_iff]
    rw [or_assoc]
  · intro h
    rw [search_news, if_neg h]
    exact List.filter_sublist news
  · intro h
    rw [search_endpoint]
    rw [h]
    have hall : ∀ itemA ∈ newsA, matchesA [] itemA = true := by
      intro itemA _
      simp [matchesA, lower]
    exact List.filter_eq_self.mpr hall
  · intro itemA
    rw [search_endpoint]
    simp only [List.mem_filter, matchesA, Bool.or_eq_true, strContains_iff]
    rw [or_assoc]

/-- Witness for the amended C6: whitespace-only query against a one-item
cache — zero results from t1.py, the full set from app0.py. -/
theorem C6_amended_search_witness :
    search_news spaceStr [demoT1Item] = [] ∧
    search_endpoint spaceStr [demoItem] = [demoItem] :=
  ⟨(C6_amended_search spaceStr [demoT1Item] [demoItem]).1 (by decide),
   (C6_amended_search spaceStr [demoT1Item] [demoItem]).2.2.2.1 (by decide)⟩


/-! ## Claim C9 -/

/-- Counterexample to C9: in t1.py the guid fallback chain is
`id` → `guid` → `link`, and the link itself defaults to the literal
`"#"` — no freshly generated token.  Two distinct entries with neither
id, guid nor link (here differing in title) both receive guid `"#"`,
and deduplication then drops the second of them: the merge of the two
keeps only one item (t1.py lines 297-331). -/
theorem C9_guid_fallback_counterexample :
    (parseEntryT 0 [] [] [] entryNoLinkA).guid = hashStr ∧
    (parseEntryT 0 [] [] [] entryNoLinkB).guid = hashStr ∧
    entryNoLinkA ≠ entryNoLinkB ∧
    (dedupPass T1Item.guid T1Item.link
      [parseEntryT 0 [] [] [] entryNoLinkA, parseEntryT 0 [] [] [] entryNoLinkB]
      [] []).length = 1 := by
  decide

/-- C9 as amended: the guid is the feed-provided identifier when present,
else the link.  When the link is also absent, app0.py uses the freshly
generated `str(uuid.uuid4())` token, so two guid-less link-less entries
with distinct tokens receive distinct guids — but both items still carry
the placeholder link `"#"`, so the link half of the deduplication drops
the second of them anyway; t1.py uses no fresh token at all: its fallback
is `id` → `guid` → `link`, with a missing link defaulting to `"#"`, so
two guid-less link-less entries receive the SAME guid `"#"` and the
second is likewise dropped. -/
theorem C9_amended_guid_fallback :
    (∀ (fid furl nm : Str) (e : RawEntry) (tok g : Str),
      e.entryId = some g → (parseEntryA fid furl nm (e, tok)).guid = g) ∧
    (∀ (fid furl nm : Str) (e : RawEntry) (tok lk : Str),
      e.entryId = none → e.entryLink = some lk →
      (parseEntryA fid furl nm (e, tok)).guid = lk) ∧
    (∀ (fid furl nm : Str) (e : RawEntry) (tok : Str),
      e.entryId = none → e.entryLink = none →
      (parseEntryA fid furl nm (e, tok)).guid = tok ∧
      (parseEntryA fid furl nm (e, tok)).link = hashStr) ∧
    (∀ (now : Nat) (fid furl nm : Str) (e : RawEntry),
      e.entryId = none → e.entryGuid = none → e.entryLink = none →
      (parseEntryT now fid furl nm e).guid = hashStr) ∧
    (∀ (fid furl nm : Str) (e1 e2 : RawEntry) (t1 t2 : Str),
      e1.entryId = none → e1.entryLink = none →
      e2.entryId = none → e2.entryLink = none → t1 ≠ t2 →
      (parseEntryA fid furl nm (e1, t1)).guid
        ≠ (parseEntryA fid furl nm (e2, t2)).guid ∧
      (dedupPass Item.guid Item.link
        [parseEntryA fid furl nm (e1, t1), parseEntryA fid furl nm (e2, t2)]
        [] []).length = 1) := by
  refine ⟨?_, ?_, ?_, ?_, ?_⟩
  · intro fid furl nm e tok g hid
    simp [parseEntryA, hid]
  · intro fid furl nm e tok lk hid hlk
    simp [parseEntryA, hid, hlk]
  · intro fid furl nm e tok hid hlk
    constructor <;> simp [parseEntryA, hid, hlk]
  · intro now fid furl nm e hid hg hlk
    simp [parseEntryT, hid, hg, hlk]
  · intro fid furl nm e1 e2 t1 t2 hid1 hlk1 hid2 hlk2 hne
    have hne' : t2 ≠ t1 := Ne.symm hne
    constructor
    · simp [parseEntryA, hid1, hlk1, hid2, hlk2, hne]
    · simp [dedupPass, parseEntryA, hid1, hlk1, hid2, hlk2, hne']

/-- Witness for the amended C9 at concrete entries and tokens `"x"`,
`"y"`. -/
theorem C9_amended_guid_fallback_witness :
    (parseEntryA [] [] [] (entryNoLinkA, ['x'])).guid
        ≠ (parseEntryA [] [] [] (entryNoLinkB, ['y'])).guid ∧
    (dedupPass Item.guid Item.link
      [parseEntryA [] [] [] (entryNoLinkA, ['x']),
       parseEntryA [] [] [] (entryNoLinkB, ['y'])] [] []).length = 1 ∧
    (parseEntryT 3 [] [] [] entryNoLinkA).guid = hashStr := by
  refine ⟨?_, ?_, ?_⟩
  · exact (C9_amended_guid_fallback.2.2.2.2 [] [] [] entryNoLinkA entryNoLinkB
      ['x'] ['y'] rfl rfl rfl rfl (by decide)).1
  · exact (C9_amended_guid_fallback.2.2.2.2 [] [] [] entryNoLinkA entryNoLinkB
      ['x'] ['y'] rfl rfl rfl rfl (by decide)).2
  · exact C9_amended_guid_fallback.2.2.2.1 3 [] [] [] entryNoLinkA rfl rfl rfl


/-! ## Claim C5 -/

/-- The link of the sample item. -/
def demoLink : Str := "link".toList

/-- Counterexample to C5: the claim says a second archive of the same
link ALWAYS reports already-saved.  In app0.py the save endpoint responds
to a duplicate with the same plain redirect to `/` that a successful save
produces — there is no already-saved notification anywhere on that path
(`save_article` returns `False`, the handler ignores it and redirects,
app0.py lines 324-338 and 629-633).  Here the first call persists the
record (store grows to 1) and returns the home redirect; the second call
persists nothing (store stays at 1) and returns the indistinguishable
home redirect rather than an already-saved report. -/
theorem C5_second_archive_counterexample :
    (save_article_endpoint demoLink demoText demoSaveState).2
        = SaveResponseA.homeRedirect ∧
    (save_article_endpoint demoLink demoText demoSaveState).1.store.length = 1 ∧
    (save_article_endpoint demoLink demoText
        ((save_article_endpoint demoLink demoText demoSaveState).1)).2
        = SaveResponseA.homeRedirect ∧
    (save_article_endpoint demoLink demoText
        ((save_article_endpoint demoLink demoText demoSaveState).1)).1.store.length
        = 1 := by
  refine ⟨by decide, by decide, by decide, by decide⟩

/-! Branch lemmas for the two archive operations. -/

theorem save_article_notFound {link extract : Str} {st : T1SaveState}
    (hf : st.news.find? (fun n => decide (n.link = link)) = none) :
    save_article link extract st = (st, SaveResult.notFound) := by
  simp [save_article, hf]

theorem save_article_already_mem {link extract : Str} {st : T1SaveState} {a : T1Item}
    (hf : st.news.find? (fun n => decide (n.link = link)) = some a)
    (h1 : link ∈ st.saved_links) :
    save_article link extract st = (st, SaveResult.alreadySaved) := by
  simp [save_article, hf, h1]

theorem save_article_extract_failed {link extract : Str} {st : T1SaveState} {a : T1Item}
    (hf : st.news.find? (fun n => decide (n.link = link)) = some a)
    (h1 : link ∉ st.saved_links) (h2 : extract = []) :
    save_article link extract st = (st, SaveResult.extractionFailed) := by
  simp [save_article, hf, h1, h2]

theorem save_article_already_store {link extract : Str} {st : T1SaveState} {a : T1Item}
    (hf : st.news.find? (fun n => decide (n.link = link)) = some a)
    (h1 : link ∉ st.saved_links) (h2 : extract ≠ [])
    (h3 : st.store.any (fun r => decide (r.sourceUrl = link)) = true) :
    save_article link extract st = (st, SaveResult.alreadySaved) := by
  simp [save_article, hf, h1, h2, h3]

theorem save_article_success {link extract : Str} {st : T1SaveState} {a : T1Item}
    (hf : st.news.find? (fun n => decide (n.link = link)) = some a)
    (h1 : link ∉ st.saved_links) (h2 : extract ≠ [])
    (h3 : st.store.any (fun r => decide (r.sourceUrl = link)) = false) :
    save_article link extract st =
      ({ news := st.news
         saved_links := link :: st.saved_links
         store := st.store ++ [mkArticleData a.title a.sourceName link extract] },
       SaveResult.saved) := by
  simp [save_article, hf, h1, h2, h3]

theorem endpoint_notFound {link extract : Str} {st : AppSaveState}
    (hf : st.news.find? (fun n => decide (n.link = link)) = none) :
    save_article_endpoint link extract st = (st, SaveResponseA.notFoundRedirect) := by
  simp [save_article_endpoint, hf]

theorem endpoint_extract_failed {link extract : Str} {st : AppSaveState} {a : Item}
    (hf : st.news.find? (fun n => decide (n.link = link)) = some a)
    (h2 : extract = []) :
    save_article_endpoint link extract st = (st, SaveResponseA.extractFailedRedirect) := by
  simp [save_article_endpoint, hf, h2]

theorem endpoint_duplicate {link extract : Str} {st : AppSaveState} {a : Item}
    (hf : st.news.find? (fun n => decide (n.link = link)) = some a)
    (h2 : extract ≠ [])
    (h3 : st.store.any (fun r => decide (r.sourceUrl = link)) = true) :
    save_article_endpoint link extract st = (st, SaveResponseA.homeRedirect) := by
  simp [save_article_endpoint, hf, h2, h3]

theorem endpoint_success {link extract : Str} {st : AppSaveState} {a : Item}
    (hf : st.news.find? (fun n => decide (n.link = link)) = some a)
    (h2 : extract ≠ [])
    (h3 : st.store.any (fun r => decide (r.sourceUrl = link)) = false) :
    save_article_endpoint link extract st =
      ({ news := st.news
         saved_links := link :: st.saved_links
         store := st.store ++ [mkArticleData a.title a.sourceName link extract] },
       SaveResponseA.homeRedirect) := by
  simp [save_article_endpoint, hf, h2, h3]

/-- When the t1.py store has no record with this `sourceUrl`, the `any`
probe is false, and conversely. -/
theorem any_store_iff (store : List SavedArticle) (link : Str) :
    store.any (fun r => decide (r.sourceUrl = link)) = true ↔
      link ∈ store.map SavedArticle.sourceUrl := by
  constructor
  · intro h
    rcases List.any_eq_true.mp h with ⟨r, hr, hx⟩
    exact List.mem_map.mpr ⟨r, hr, by simpa using hx⟩
  · intro h
    rcases List.mem_map.mp h with ⟨r, hr, hx⟩
    exact List.any_eq_true.mpr ⟨r, hr, by simpa using hx⟩

/-- The cache lookup succeeds exactly when some cached item has this
link (t1.py). -/
theorem find_link_cases (news : List T1Item) (link : Str) :
    (news.find? (fun n => decide (n.link = link)) = none ∧
      ¬∃ it ∈ news, it.link = link) ∨
    (∃ a, news.find? (fun n => decide (n.link = link)) = some a ∧ a ∈ news ∧
      a.link = link) := by
  cases hf : news.find? (fun n => decide (n.link = link)) with
  | none =>
    left
    refine ⟨rfl, ?_⟩
    rintro ⟨it, hit, hl⟩
    have := List.find?_eq_none.mp hf it hit
    simp [hl] at this
  | some a =>
    right
    exact ⟨a, rfl, List.mem_of_find?_eq_some hf,
      by simpa using List.find?_some hf⟩

/-- The cache lookup succeeds exactly when some cached item has this
link (app0.py). -/
theorem find_link_casesA (news : List Item) (link : Str) :
    (news.find? (fun n => decide (n.link = link)) = none ∧
      ¬∃ it ∈ news, it.link = link) ∨
    (∃ a, news.find? (fun n => decide (n.link = link)) = some a ∧ a ∈ news ∧
      a.link = link) := by
  cases hf : news.find? (fun n => decide (n.link = link)) with
  | none =>
    left
    refine ⟨rfl, ?_⟩
    rintro ⟨it, hit, hl⟩
    have := List.find?_eq_none.mp hf it hit
    simp [hl] at this
  | some a =>
    right
    exact ⟨a, rfl, List.mem_of_find?_eq_some hf,
      by simpa using List.find?_some hf⟩

theorem C5_endpoint_part (stA : AppSaveState) (link extract : Str) :
    (save_article_endpoint link extract stA).1.store ≠ stA.store ↔
      (∃ it ∈ stA.news, it.link = link) ∧
      link ∉ stA.store.map SavedArticle.sourceUrl ∧ extract ≠ [] := by
  rcases find_link_casesA stA.news link with ⟨hf, hno⟩ | ⟨a, hf, hmem, hl⟩
  · rw [endpoint_notFound hf]
    constructor
    · intro h
      exact absurd rfl h
    · rintro ⟨hex, -, -⟩
      exact absurd hex hno
  · by_cases h2 : extract = []
    · rw [endpoint_extract_failed hf h2]
      constructor
      · intro h
        exact absurd rfl h
      · rintro ⟨-, -, hex⟩
        exact absurd h2 hex
    · cases h3 : stA.store.any (fun r => decide (r.sourceUrl = link)) with
      | true =>
        have h3s : link ∈ stA.store.map SavedArticle.sourceUrl :=
          (any_store_iff stA.store link).mp h3
        rw [endpoint_duplicate hf h2 h3]
        constructor
        · intro h
          exact absurd rfl h
        · rintro ⟨-, hnot, -⟩
          exact absurd h3s hnot
      | false =>
        have h3s : link ∉ stA.store.map SavedArticle.sourceUrl := by
          intro hmem2
          rw [← any_store_iff stA.store link] at hmem2
          rw [h3] at hmem2
          cases hmem2
        rw [endpoint_success hf h2 h3]
        dsimp only
        constructor
        · intro _
          exact ⟨⟨a, hmem, hl⟩, h3s, h2⟩
        · intro _ h
          have := congrArg List.length h
          simp at this

theorem C5_endpoint_repeat (stA : AppSaveState) (link extract : Str) :
    (save_article_endpoint link extract stA).1.store ≠ stA.store →
      (save_article_endpoint link extract
          ((save_article_endpoint link extract stA).1)).2
          = SaveResponseA.homeRedirect ∧
      (save_article_endpoint link extract
          ((save_article_endpoint link extract stA).1)).1
          = (save_article_endpoint link extract stA).1 := by
  intro hch
  rcases find_link_casesA stA.news link with ⟨hf, hno⟩ | ⟨a, hf, hmem, hl⟩
  · rw [endpoint_notFound hf] at hch
    exact absurd rfl hch
  · by_cases h2 : extract = []
    · rw [endpoint_extract_failed hf h2] at hch
      exact absurd rfl hch
    · cases h3 : stA.store.any (fun r => decide (r.sourceUrl = link)) with
      | true =>
        rw [endpoint_duplicate hf h2 h3] at hch
        exact absurd rfl hch
      | false =>
        rw [endpoint_success hf h2 h3]
        dsimp only
        have hf2 : (AppSaveState.mk stA.news (link :: stA.saved_links)
              (stA.store ++ [mkArticleData a.title a.sourceName link extract])).news.find?
                (fun n => decide (n.link = link)) = some a := hf
        have h32 : (AppSaveState.mk stA.news (link :: stA.saved_links)
              (stA.store ++ [mkArticleData a.title a.sourceName link extract])).store.any
                (fun r => decide (r.sourceUrl = link)) = true := by
          simp [mkArticleData]
        rw [endpoint_duplicate hf2 h2 h32]
        exact ⟨rfl, rfl⟩


/-- C5 as amended: `NewsFetcher.save_article` (t1.py) behaves exactly as
claimed — it persists a new record iff the link is in the current cache,
not already in the saved store, and extraction is nonempty; otherwise it
rejects with the corresponding reason and leaves the state unchanged;
every persisted record has nonempty `fullText`; and a second archive of
the same link reports already-saved with the state unchanged.  The
app0.py endpoint persists under the same conditions and a repeated
archive likewise changes nothing, but the repeat ends in the same plain
home redirect as a success: only the not-found and extraction-failure
paths carry a reason, and an already-saved repeat is never reported. -/
theorem C5_amended_archive (st : T1SaveState) (stA : AppSaveState)
    (link extract : Str)
    (hinv : ∀ x, x ∈ st.saved_links ↔ x ∈ st.store.map SavedArticle.sourceUrl) :
    ((save_article link extract st).2 = SaveResult.saved ↔
      (∃ it ∈ st.news, it.link = link) ∧
      link ∉ st.store.map SavedArticle.sourceUrl ∧ extract ≠ []) ∧
    ((save_article link extract st).2 ≠ SaveResult.saved →
      (save_article link extract st).1 = st) ∧
    ((∀ r ∈ st.store, r.fullText ≠ []) →
      ∀ r ∈ (save_article link extract st).1.store, r.fullText ≠ []) ∧
    ((save_article link extract st).2 = SaveResult.saved →
      (save_article link extract ((save_article link extract st).1)).2
          = SaveResult.alreadySaved ∧
      (save_article link extract ((save_article link extract st).1)).1
          = (save_article link extract st).1) ∧
    ((save_article_endpoint link extract stA).1.store ≠ stA.store ↔
      (∃ it ∈ stA.news, it.link = link) ∧
      link ∉ stA.store.map SavedArticle.sourceUrl ∧ extract ≠ []) ∧
    ((save_article_endpoint link extract stA).1.store ≠ stA.store →
      (save_article_endpoint link extract
          ((save_article_endpoint link extract stA).1)).2
          = SaveResponseA.homeRedirect ∧
      (save_article_endpoint link extract
          ((save_article_endpoint link extract stA).1)).1
          = (save_article_endpoint link extract stA).1) := by
  rcases find_link_cases st.news link with ⟨hf, hno⟩ | ⟨a, hf, hmem, hl⟩
  case inl =>
    -- link not cached in t1.py: every t1 conjunct is a rejection fact
    rw [save_article_notFound hf]
    refine ⟨?_, ?_, ?_, ?_, ?_, ?_⟩
    · dsimp only
      constructor
      · intro h
        cases h
      · rintro ⟨hex, -, -⟩
        exact absurd hex hno
    · intro _
      rfl
    · intro h
      simpa using h
    · intro h
      cases h
    · exact C5_endpoint_part stA link extract
    · exact C5_endpoint_repeat stA link extract
  case inr =>
    by_cases h1 : link ∈ st.saved_links
    case pos =>
      have h1s : link ∈ st.store.map SavedArticle.sourceUrl := (hinv link).mp h1
      rw [save_article_already_mem hf h1]
      refine ⟨?_, fun _ => rfl, fun h => by simpa using h, ?_, ?_, ?_⟩
      · dsimp only
        constructor
        · intro h
          cases h
        · rintro ⟨-, hnot, -⟩
          exact absurd h1s hnot
      · intro h
        cases h
      · exact C5_endpoint_part stA link extract
      · exact C5_endpoint_repeat stA link extract
    case neg =>
      by_cases h2 : extract = []
      case pos =>
        rw [save_article_extract_failed hf h1 h2]
        refine ⟨?_, fun _ => rfl, fun h => by simpa using h, ?_, ?_, ?_⟩
        · dsimp only
          constructor
          · intro h
            cases h
          · rintro ⟨-, -, hex⟩
            exact absurd h2 hex
        · intro h
          cases h
        · exact C5_endpoint_part stA link extract
        · exact C5_endpoint_repeat stA link extract
      case neg =>
        cases h3 : st.store.any (fun r => decide (r.sourceUrl = link)) with
        | true =>
          have h3s : link ∈ st.store.map SavedArticle.sourceUrl :=
            (any_store_iff st.store link).mp h3
          rw [save_article_already_store hf h1 h2 h3]
          refine ⟨?_, fun _ => rfl, fun h => by simpa using h, ?_, ?_, ?_⟩
          · dsimp only
            constructor
            · intro h
              cases h
            · rintro ⟨-, hnot, -⟩
              exact absurd h3s hnot
          · intro h
            cases h
          · exact C5_endpoint_part stA link extract
          · exact C5_endpoint_repeat stA link extract
        | false =>
          have h3s : link ∉ st.store.map SavedArticle.sourceUrl := by
            intro hmem2
            rw [← any_store_iff st.store link] at hmem2
            rw [h3] at hmem2
            cases hmem2
          rw [save_article_success hf h1 h2 h3]
          refine ⟨?_, ?_, ?_, ?_, ?_, ?_⟩
          · dsimp only
            exact ⟨fun _ => ⟨⟨a, hmem, hl⟩, h3s, h2⟩, fun _ => rfl⟩
          · intro h
            exact absurd rfl h
          · intro hfull r hr
            dsimp only at hr
            rcases List.mem_append.mp hr with hold | hnew
            · exact hfull r hold
            · rcases List.mem_singleton.mp hnew with rfl
              simpa [mkArticleData] using h2
          · intro _
            dsimp only
            have hf2 : (T1SaveState.mk st.news (link :: st.saved_links)
                  (st.store ++ [mkArticleData a.title a.sourceName link extract])).news.find?
                    (fun n => decide (n.link = link)) = some a := hf
            have hmem2 : link ∈ (T1SaveState.mk st.news (link :: st.saved_links)
                  (st.store ++ [mkArticleData a.title a.sourceName link extract])).saved_links :=
              List.mem_cons_self _ _
            rw [save_article_already_mem hf2 hmem2]
            exact ⟨rfl, rfl⟩
          · exact C5_endpoint_part stA link extract
          · exact C5_endpoint_repeat stA link extract



/-- Witness for the amended C5: archiving the sample item into the empty
t1.py store succeeds, and archiving it again reports already-saved. -/
theorem C5_amended_archive_witness :
    (save_article demoLink demoText demoT1SaveState).2 = SaveResult.saved ∧
    (save_article demoLink demoText
        ((save_article demoLink demoText demoT1SaveState).1)).2
        = SaveResult.alreadySaved := by
  have h := C5_amended_archive demoT1SaveState demoSaveState demoLink demoText
    (by intro x; simp [demoT1SaveState])
  have hsaved : (save_article demoLink demoText demoT1SaveState).2
      = SaveResult.saved :=
    h.1.mpr ⟨⟨demoT1Item, by simp [demoT1SaveState], by decide⟩,
      by simp [demoT1SaveState], by decide⟩
  exact ⟨hsaved, (h.2.2.2.1 hsaved).1⟩

/-! ## Claim C10 -/

theorem mkArticleData_sourceUrl (t sn l ft : Str) :
    (mkArticleData t sn l ft).sourceUrl = l := rfl

theorem save_article_state_cases (link extract : Str) (st : T1SaveState) :
    ((save_article link extract st).1 = st ∧
     (save_article link extract st).2 ≠ SaveResult.saved) ∨
    (∃ a, a ∈ st.news ∧ a.link = link ∧
      (save_article link extract st).1
        = T1SaveState.mk st.news (link :: st.saved_links)
            (st.store ++ [mkArticleData a.title a.sourceName link extract]) ∧
      (save_article link extract st).2 = SaveResult.saved) := by
  rcases find_link_cases st.news link with ⟨hf, hno⟩ | ⟨a, hf, hmem, hl⟩
  · rw [save_article_notFound hf]
    left
    exact ⟨rfl, by simp⟩
  · by_cases h1 : link ∈ st.saved_links
    · rw [save_article_already_mem hf h1]
      left
      exact ⟨rfl, by simp⟩
    · by_cases h2 : extract = []
      · rw [save_article_extract_failed hf h1 h2]
        left
        exact ⟨rfl, by simp⟩
      · cases h3 : st.store.any (fun r => decide (r.sourceUrl = link)) with
        | true =>
          rw [save_article_already_store hf h1 h2 h3]
          left
          exact ⟨rfl, by simp⟩
        | false =>
          rw [save_article_success hf h1 h2 h3]
          right
          exact ⟨a, hmem, hl, rfl, rfl⟩

theorem endpoint_state_cases (link extract : Str) (st : AppSaveState) :
    (save_article_endpoint link extract st).1 = st ∨
    (∃ a, a ∈ st.news ∧ a.link = link ∧
      (save_article_endpoint link extract st).1
        = AppSaveState.mk st.news (link :: st.saved_links)
            (st.store ++ [mkArticleData a.title a.sourceName link extract])) := by
  rcases find_link_casesA st.news link with ⟨hf, hno⟩ | ⟨a, hf, hmem, hl⟩
  · rw [endpoint_notFound hf]
    left
    rfl
  · by_cases h2 : extract = []
    · rw [endpoint_extract_failed hf h2]
      left
      rfl
    · cases h3 : st.store.any (fun r => decide (r.sourceUrl = link)) with
      | true =>
        rw [endpoint_duplicate hf h2 h3]
        left
        rfl
      | false =>
        rw [endpoint_success hf h2 h3]
        right
        exact ⟨a, hmem, hl, rfl⟩

/-- C10: the in-memory saved-links index mirrors the persisted
collection.  `load_saved_links` (the startup initialisation in both
programs) recovers exactly the set of `sourceUrl` values of the persisted
records (given that none of them has an empty — falsy — `sourceUrl`,
which the loaders skip); both archive operations preserve the invariant
"`saved_links` = set of `sourceUrl` values of the store": a link is added
exactly when a new record for it is persisted, and a rejected or failed
archive changes neither the index nor the store. -/
theorem C10_saved_links_index (store : List SavedArticle)
    (st : T1SaveState) (stA : AppSaveState) (link extract : Str)
    (hne : ∀ r ∈ store, r.sourceUrl ≠ [])
    (hinv : ∀ x, x ∈ st.saved_links ↔ x ∈ st.store.map SavedArticle.sourceUrl)
    (hinvA : ∀ x, x ∈ stA.saved_links ↔ x ∈ stA.store.map SavedArticle.sourceUrl) :
    (∀ x, x ∈ load_saved_links store ↔ x ∈ store.map SavedArticle.sourceUrl) ∧
    (∀ x, x ∈ (save_article link extract st).1.saved_links ↔
        x ∈ (save_article link extract st).1.store.map SavedArticle.sourceUrl) ∧
    ((save_article link extract st).2 ≠ SaveResult.saved →
      (save_article link extract st).1.saved_links = st.saved_links ∧
      (save_article link extract st).1.store = st.store) ∧
    (∀ x, x ∈ (save_article_endpoint link extract stA).1.saved_links ↔
        x ∈ (save_article_endpoint link extract stA).1.store.map
              SavedArticle.sourceUrl) ∧
    ((save_article_endpoint link extract stA).1.store = stA.store →
      (save_article_endpoint link extract stA).1.saved_links
        = stA.saved_links) := by
  refine ⟨?_, ?_, ?_, ?_, ?_⟩
  · intro x
    constructor
    · intro hx
      rcases List.mem_map.mp hx with ⟨r, hr, hrx⟩
      exact List.mem_map.mpr ⟨r, (List.mem_filter.mp hr).1, hrx⟩
    · intro hx
      rcases List.mem_map.mp hx with ⟨r, hr, hrx⟩
      refine List.mem_map.mpr ⟨r, List.mem_filter.mpr ⟨hr, ?_⟩, hrx⟩
      simpa using hne r hr
  · rcases save_article_state_cases link extract st with ⟨hid, -⟩ | ⟨a, -, -, hst, -⟩
    · rw [hid]
      exact hinv
    · rw [hst]
      intro x
      dsimp only
      rw [List.map_append, List.mem_cons, List.mem_append]
      simp only [List.map_cons, List.map_nil, mkArticleData_sourceUrl,
        List.mem_singleton]
      rw [hinv x]
      tauto
  · intro hns
    rcases save_article_state_cases link extract st with ⟨hid, -⟩ | ⟨-, -, -, -, hsv⟩
    · rw [hid]
      exact ⟨rfl, rfl⟩
    · exact absurd hsv hns
  · rcases endpoint_state_cases link extract stA with hid | ⟨a, -, -, hst⟩
    · rw [hid]
      exact hinvA
    · rw [hst]
      intro x
      dsimp only
      rw [List.map_append, List.mem_cons, List.mem_append]
      simp only [List.map_cons, List.map_nil, mkArticleData_sourceUrl,
        List.mem_singleton]
      rw [hinvA x]
      tauto
  · intro hstore
    rcases endpoint_state_cases link extract stA with hid | ⟨a, -, -, hst⟩
    · rw [hid]
    · rw [hst] at hstore
      dsimp only at hstore
      have := congrArg List.length hstore
      simp at this

/-- Witness for C10 at concrete inputs: the empty persisted collection
and the sample one-item cache with an empty store. -/
theorem C10_saved_links_index_witness :
    (∀ x, x ∈ load_saved_links []
        ↔ x ∈ ([] : List SavedArticle).map SavedArticle.sourceUrl) ∧
    (∀ x, x ∈ (save_article demoLink demoText demoT1SaveState).1.saved_links
        ↔ x ∈ (save_article demoLink demoText demoT1SaveState).1.store.map
                SavedArticle.sourceUrl) := by
  have h := C10_saved_links_index [] demoT1SaveState demoSaveState
    demoLink demoText
    (by intro r hr; cases hr)
    (by intro x; simp [demoT1SaveState])
    (by intro x; simp [demoSaveState])
  exact ⟨h.1, h.2.1⟩


end NewsHub
